import Mathlib

/-!
Verification development for the stock-news-analyzer aggregation engine.

The JavaScript services under `src/services` and `src/utils` are shallowly
embedded below.  JavaScript numbers are modelled as exact rationals.
Floating-point library functions that the code calls (`Math.sqrt`,
`Math.sin`, `Math.PI`) are rational-valued on actual hardware, so they are
modelled as an explicit `Platform` record of rational functions.  Ambient
state that the code reads (`Date.now()`, `new Date().getHours()`, the
Eastern-time clock obtained via `toLocaleString`, and the stream of
`Math.random()` draws) is modelled as an explicit `Ambient` record, so that
every source function becomes a pure function of its arguments plus the
platform and ambient records.  String formatting of numeric values
(`toFixed`, `formatVolume`) is presentational; records keep the numeric
value that the source formats.
-/

set_option maxRecDepth 4000

/-- Floating-point library functions used by the code, as rational-valued
functions (an IEEE double is an exact rational). -/
structure Platform where
  msqrt : ℚ → ℚ
  msin : ℚ → ℚ
  mpi : ℚ

/-- Ambient state read by the code during one run: the local clock
(`getHours` / `getMinutes` / `getDay`), the Eastern-time clock obtained via
`toLocaleString("en-US", {timeZone: "America/New_York"})`, `Date.now()` in
milliseconds, and the successive draws of `Math.random()`. -/
structure Ambient where
  nowMs : ℤ
  hour : ℤ
  minute : ℤ
  day : ℤ
  ethour : ℤ
  etminute : ℤ
  etday : ℤ
  rand : ℕ → ℚ

/-- `Math.max` of two numbers (spelled out so that it evaluates by kernel
reduction). -/
def mathMax (a b : ℚ) : ℚ := if a ≤ b then b else a

/-- `Math.min` of two numbers. -/
def mathMin (a b : ℚ) : ℚ := if a ≤ b then a else b

/-- `Math.abs`. -/
def mathAbs (a : ℚ) : ℚ := if a < 0 then -a else a

/-! ### JavaScript `Map` model

A JS `Map` preserves insertion order; `set` of an existing key overwrites
the value in place, `set` of a fresh key appends, `keys().next().value` is
the first-inserted key.  We model a `Map` as an association list in
insertion order. -/

/-- `Map.get`: first (and, under the Map invariant, only) binding of `k`. -/
def jsMapGet {β : Type} (m : List (String × β)) (k : String) : Option β :=
  match m with
  | [] => none
  | (k', v) :: rest => if k' = k then some v else jsMapGet rest k

/-- `Map.set`: overwrite in place if the key is present, else append. -/
def jsMapSet {β : Type} (m : List (String × β)) (k : String) (v : β) :
    List (String × β) :=
  match m with
  | [] => [(k, v)]
  | (k', v') :: rest =>
    if k' = k then (k', v) :: rest else (k', v') :: jsMapSet rest k v

/-- `Map.delete`: remove the binding of `k`. -/
def jsMapDelete {β : Type} (m : List (String × β)) (k : String) :
    List (String × β) :=
  match m with
  | [] => []
  | (k', v') :: rest =>
    if k' = k then rest else (k', v') :: jsMapDelete rest k

/-- One cache entry: the stored payload and its `Date.now()` write stamp. -/
structure CacheItem (α : Type) where
  data : α
  timestamp : ℤ
deriving DecidableEq

/-- A cache is a JS `Map` from keys to stamped entries. -/
abbrev CacheStore (α : Type) : Type := List (String × CacheItem α)

/-- Capacity-bounded insertion, the common body of `helpers.js` `cache.set`
and `RealYahooFinanceService.setCached` (which are line-for-line identical,
both with maximum size 50): when the store has reached `maxSize` entries the
first-inserted entry (`keys().next().value`) is deleted, then the new entry
is written. -/
def evictingSet {α : Type} (maxSize : ℕ) (store : CacheStore α)
    (key : String) (data : α) (now : ℤ) : CacheStore α :=
  let store' : CacheStore α :=
    if maxSize ≤ store.length then List.tail store else store
  jsMapSet store' key ⟨data, now⟩

namespace Helpers

/-- `CONSTANTS.CACHE_DURATION`: 5 minutes in milliseconds. -/
def CACHE_DURATION : ℤ := 5 * 60 * 1000

/-- `CONSTANTS.MAX_CACHE_SIZE`. -/
def MAX_CACHE_SIZE : ℕ := 50

/-- `cache.get` from `src/utils/helpers.js`: a missing key is `null`; an
entry older than `CACHE_DURATION` is deleted and reported `null`; otherwise
the stored payload is returned.  Returns the looked-up payload together
with the store after the call. -/
def cacheGet {α : Type} (store : CacheStore α) (key : String) (now : ℤ) :
    Option α × CacheStore α :=
  match jsMapGet store key with
  | none => (none, store)
  | some item =>
    if CACHE_DURATION < now - item.timestamp then (none, jsMapDelete store key)
    else (some item.data, store)

/-- `cache.set` from `src/utils/helpers.js`: evicts the first-inserted
entry when the store has reached `MAX_CACHE_SIZE`, then writes the entry. -/
def cacheSet {α : Type} (store : CacheStore α) (key : String) (data : α)
    (now : ℤ) : CacheStore α :=
  evictingSet MAX_CACHE_SIZE store key data now

end Helpers

namespace RealTimeGainersService

/-- `setCached` from `src/services/realTimeGainersApi.js`: a plain
`Map.set` with no capacity check. -/
def setCached {α : Type} (store : CacheStore α) (key : String) (data : α)
    (now : ℤ) : CacheStore α :=
  jsMapSet store key ⟨data, now⟩

/-- `getCached` from `src/services/realTimeGainersApi.js`
(`cacheTimeout` is 2 minutes). -/
def cacheTimeout : ℤ := 2 * 60 * 1000

def getCached {α : Type} (store : CacheStore α) (key : String) (now : ℤ) :
    Option α × CacheStore α :=
  match jsMapGet store key with
  | none => (none, store)
  | some item =>
    if cacheTimeout < now - item.timestamp then (none, jsMapDelete store key)
    else (some item.data, store)

end RealTimeGainersService

namespace SimpleCorsService

/-- `setCached` from `src/services/simpleCorsService.js`: a plain
`Map.set` with no capacity check. -/
def setCached {α : Type} (store : CacheStore α) (key : String) (data : α)
    (now : ℤ) : CacheStore α :=
  jsMapSet store key ⟨data, now⟩

end SimpleCorsService

namespace RealYahooFinanceService

/-- `config.maxCacheSize` from `src/services/yahooFinanceApi.js`. -/
def maxCacheSize : ℕ := 50

/-- `setCached` from `src/services/yahooFinanceApi.js`: identical eviction
logic to `helpers.js` `cache.set`, with `config.maxCacheSize = 50`. -/
def setCached {α : Type} (store : CacheStore α) (key : String) (data : α)
    (now : ℤ) : CacheStore α :=
  evictingSet maxCacheSize store key data now

end RealYahooFinanceService

/-! ### `src/services/newsApi.js` — `EnhancedNewsService` -/

/-- `toLowerCase` (ASCII, which is all the keyword matching needs). -/
def toLowerStr (s : String) : String :=
  String.mk (s.toList.map Char.toLower)

/-- JavaScript `String.prototype.includes`: substring test. -/
def strContains (s sub : String) : Bool :=
  (List.range (s.toList.length + 1)).any
    (fun i => sub.toList.isPrefixOf (s.toList.drop i))

/-- JavaScript `String.prototype.startsWith`. -/
def strStartsWith (s p : String) : Bool :=
  p.toList.isPrefixOf s.toList

/-- Split a character list at whitespace characters, accumulating the
current word (reversed); each whitespace character is a boundary. -/
def splitWs : List Char → List Char → List String
  | [], cur => [String.mk cur.reverse]
  | c :: rest, cur =>
    if c.isWhitespace then String.mk cur.reverse :: splitWs rest []
    else splitWs rest (c :: cur)

namespace EnhancedNewsService

/-- Positive keyword list of `calculateSentiment`. -/
def positiveWords : List String :=
  ["beat", "strong", "growth", "profit", "gain", "rise", "up", "positive",
   "good", "success", "win", "boost", "improve", "bullish", "upgrade",
   "buy", "outperform", "exceed", "higher", "increase", "rally", "surge"]

/-- Negative keyword list of `calculateSentiment`. -/
def negativeWords : List String :=
  ["miss", "weak", "loss", "fall", "down", "negative", "bad", "fail",
   "drop", "decline", "bearish", "concern", "risk", "downgrade", "sell",
   "underperform", "lower", "decrease", "crash", "plunge", "warning"]

/-- `calculateSentiment` from `newsApi.js`: lower-case, split on
whitespace (`/\s+/`; runs of whitespace yield extra empty words here,
which match no keyword and so change nothing), accumulate +0.1 per word
containing a positive keyword and -0.1 per word containing a negative
keyword (a word can do both, counting twice), divide by `Math.sqrt` of the
matched-word count, clamp to [-1, 1]. -/
def calculateSentiment (pf : Platform) (text : String) : ℚ :=
  if text = "" then 0
  else
    let words := splitWs (toLowerStr text).toList []
    let acc := words.foldl (fun acc word =>
      let acc :=
        if positiveWords.any (fun w => strContains word w) then
          (acc.1 + 1/10, acc.2 + 1)
        else acc
      if negativeWords.any (fun w => strContains word w) then
        (acc.1 - 1/10, acc.2 + 1)
      else acc) ((0 : ℚ), (0 : ℕ))
    let score := if 0 < acc.2 then acc.1 / pf.msqrt (acc.2 : ℚ) else acc.1
    mathMax (-1) (mathMin 1 score)

/-- `categorizeNews`: each branch models the corresponding regex test
(plain alternation of literals, so a substring test per alternative). -/
def categorizeNews (title : String) : String :=
  if title = "" then "corporate"
  else
    let t := toLowerStr title
    if ["earnings", "revenue", "profit", "quarter", "q1", "q2", "q3", "q4",
        "fiscal"].any (fun w => strContains t w) then "earnings"
    else if ["analyst", "upgrade", "downgrade", "target", "rating",
        "recommendation"].any (fun w => strContains t w) then "analyst"
    else if ["merger", "acquisition", "partnership", "deal",
        "joint venture"].any (fun w => strContains t w) then "partnership"
    else if ["regulatory", "sec", "investigation", "lawsuit", "compliance",
        "fine"].any (fun w => strContains t w) then "regulatory"
    else if ["market", "trading", "volatility", "stock", "shares",
        "price"].any (fun w => strContains t w) then "market"
    else if ["product", "launch", "innovation", "technology",
        "patent"].any (fun w => strContains t w) then "product"
    else if ["management", "ceo", "executive", "leadership",
        "appointment"].any (fun w => strContains t w) then "management"
    else "corporate"

/-- A normalized news record as built by the adapters and the mock
generator.  `publishedAt` is the epoch-millisecond value of the timestamp
the source stores as an ISO string (the sort comparator turns it back into
this number).  Adapter-specific extras (`imageUrl`, `highlights`,
`topics`, `relevanceScore`) play no role in any claim and are omitted. -/
structure Article where
  id : String
  title : String
  description : String
  source : String
  publishedAt : ℤ
  url : String
  sentiment : ℚ
  category : String
  confidence : ℚ
deriving DecidableEq

/-- One entry of the `sources` manifest: success entries carry `count`,
error entries carry `error`. -/
structure SourceEntry where
  name : String
  status : String
  count : Option ℕ
  error : Option String
deriving DecidableEq

/-- The value built by `calculateOverallSentiment`. -/
structure SentimentSummary where
  score : ℚ
  label : String
  confidence : ℚ
  positive : ℕ
  neutral : ℕ
  negative : ℕ
deriving DecidableEq

/-- `calculateOverallSentiment`: arithmetic mean of the article sentiment
scores plus label, confidence and distribution.  In this model every
article carries a rational sentiment, so the numeric filter of the source
keeps every element. -/
def calculateOverallSentiment (articles : List Article) :
    Option SentimentSummary :=
  if articles = [] then none
  else
    let sentiments := articles.map (fun a => a.sentiment)
    if sentiments = [] then none
    else
      let avgSentiment := sentiments.sum / (sentiments.length : ℚ)
      some
        { score := avgSentiment
          label :=
            if avgSentiment > 0.2 then "Positive"
            else if avgSentiment < -0.2 then "Negative" else "Neutral"
          confidence := mathAbs avgSentiment * 100
          positive := (sentiments.filter (fun s => decide (s > 0.2))).length
          neutral :=
            (sentiments.filter (fun s => decide (-0.2 ≤ s ∧ s ≤ 0.2))).length
          negative := (sentiments.filter (fun s => decide (s < -0.2))).length }

/-- The deduplication key of `deduplicateArticles`: first 50 characters of
the lower-cased title, an underscore, then the source name. -/
def dedupKey (article : Article) : String :=
  String.mk ((toLowerStr article.title).toList.take 50) ++ "_" ++
    article.source

/-- The `filter` over a growing `seen` set inside `deduplicateArticles`. -/
def dedupAux (seen : List String) : List Article → List Article
  | [] => []
  | article :: rest =>
    if dedupKey article ∈ seen then dedupAux seen rest
    else article :: dedupAux (dedupKey article :: seen) rest

/-- `deduplicateArticles`: keep the first record for each key. -/
def deduplicateArticles (articles : List Article) : List Article :=
  dedupAux [] articles

/-- One hour in milliseconds, used by the mock timestamps. -/
def hourMs : ℤ := 60 * 60 * 1000

/-- The six template articles of `getMockNews`, with the query symbol
interpolated and timestamps at fixed offsets before `Date.now()`. -/
def mockArticles (amb : Ambient) (symbol : String) : List Article :=
  [{ id := "mock_1"
     title := symbol ++ " Reports Strong Q4 Earnings, Revenue Beats Expectations"
     description := symbol ++ " announced quarterly earnings that exceeded analyst expectations, driven by strong revenue growth and improved operational efficiency. The company showed resilience in challenging market conditions."
     source := "Demo Financial News"
     publishedAt := amb.nowMs - 2 * hourMs
     url := "#", sentiment := 0.8, category := "earnings", confidence := 85 },
   { id := "mock_2"
     title := "Wall Street Analysts Upgrade " ++ symbol ++ " Price Target on Innovation Push"
     description := "Multiple Wall Street analysts have raised their price targets for " ++ symbol ++ " following the company\x27s latest product innovation announcement and strategic market expansion plans."
     source := "Demo Market Watch"
     publishedAt := amb.nowMs - 4 * hourMs
     url := "#", sentiment := 0.6, category := "analyst", confidence := 90 },
   { id := "mock_3"
     title := symbol ++ " Faces New Regulatory Scrutiny Over Market Practices"
     description := "Regulatory authorities are examining " ++ symbol ++ "\x27s business practices amid growing concerns from competitors and consumer advocacy groups about market dominance."
     source := "Demo Regulatory Times"
     publishedAt := amb.nowMs - 6 * hourMs
     url := "#", sentiment := -0.3, category := "regulatory", confidence := 75 },
   { id := "mock_4"
     title := symbol ++ " Announces Strategic Partnership for AI Development"
     description := symbol ++ " has entered into a strategic partnership with leading technology firms to accelerate artificial intelligence development and integration across its product portfolio."
     source := "Demo Tech News"
     publishedAt := amb.nowMs - 8 * hourMs
     url := "#", sentiment := 0.7, category := "partnership", confidence := 88 },
   { id := "mock_5"
     title := symbol ++ " Stock Shows Resilience Amid Market Volatility"
     description := symbol ++ " shares demonstrated strong performance this week despite broader market uncertainty, with institutional investors showing continued confidence in the company\x27s long-term strategy."
     source := "Demo Investment Journal"
     publishedAt := amb.nowMs - 12 * hourMs
     url := "#", sentiment := 0.4, category := "market", confidence := 80 },
   { id := "mock_6"
     title := symbol ++ " Board Approves Major Share Buyback Program"
     description := "The company\x27s board of directors has approved a significant share repurchase program, signaling strong confidence in future performance and commitment to shareholder value."
     source := "Demo Corporate News"
     publishedAt := amb.nowMs - 18 * hourMs
     url := "#", sentiment := 0.5, category := "corporate", confidence := 82 }]

/-- The aggregate result object of `getComprehensiveNews` / `getMockNews`.
`timestamp` is the epoch value of the ISO timestamp the source stores. -/
structure NewsResult where
  symbol : String
  articles : List Article
  sources : List SourceEntry
  errors : List String
  sentiment : Option SentimentSummary
  timestamp : ℤ
deriving DecidableEq

/-- `getMockNews`: the synthetic fallback result, whose manifest is the
single `Demo Data` success entry. -/
def getMockNews (amb : Ambient) (symbol : String) : NewsResult :=
  let arts := mockArticles amb symbol
  { symbol := symbol
    articles := arts
    sources := [{ name := "Demo Data", status := "success",
                  count := some arts.length, error := none }]
    errors := []
    sentiment := calculateOverallSentiment arts
    timestamp := amb.nowMs }

/-- The raw items of an Alpha Vantage `NEWS_SENTIMENT` response
(`data.feed`).  `overall_sentiment_score` and `relevance_score` are the
numbers `parseFloat` produces from the raw fields (`none` models an
absent/falsy field, which `|| 0` turns into 0); `publishedAt` is the epoch
value of the `time_published` stamp after `convertAlphaVantageTime`. -/
structure AVFeedItem where
  url : String
  title : String
  summary : Option String
  source : String
  publishedAt : ℤ
  overall_sentiment_score : Option ℚ
  relevance_score : Option ℚ
deriving DecidableEq

/-- An Alpha Vantage response body: the `Error Message` and `Information`
fields checked by `fetchFromAlphaVantage`, and the feed. -/
structure AVResponse where
  errorMessage : Option String
  information : Option String
  feed : List AVFeedItem
deriving DecidableEq

/-- What one adapter resolves with: its display name and its normalized
articles. -/
structure AdapterData where
  source : String
  articles : List Article
deriving DecidableEq

/-- The response-processing part of `fetchFromAlphaVantage`: reject on the
`Error Message` / `Information` fields, otherwise map each feed item
field-by-field onto an `Article`.  The sentiment is
`parseFloat(article.overall_sentiment_score || 0)`, stored verbatim
without any clamping. -/
def fetchFromAlphaVantageMap (resp : AVResponse) : Except String AdapterData :=
  match resp.errorMessage with
  | some m => .error ("Alpha Vantage API error: " ++ m)
  | none =>
    match resp.information with
    | some i => .error ("Alpha Vantage API rate limit: " ++ i)
    | none =>
      .ok { source := "Alpha Vantage"
            articles := resp.feed.map (fun item =>
              { id := item.url
                title := item.title
                description := item.summary.getD ""
                source := item.source
                publishedAt := item.publishedAt
                url := item.url
                sentiment := item.overall_sentiment_score.getD 0
                category := categorizeNews item.title
                confidence := mathAbs (item.overall_sentiment_score.getD 0) * 100 }) }

/-- The configured API keys (`process.env.REACT_APP_*`); `none` models an
unset variable. -/
structure ApiConfig where
  marketauxKey : Option String
  finnhubKey : Option String
  stocknewsKey : Option String
  alphavantageKey : Option String

/-- `this.apis[source]?.key` for the four adapter ids; `none` for any
other string (no such API entry). -/
def apiKeyFor (cfg : ApiConfig) (s : String) : Option (Option String) :=
  if s = "marketaux" then some cfg.marketauxKey
  else if s = "finnhub" then some cfg.finnhubKey
  else if s = "stocknewsapi" then some cfg.stocknewsKey
  else if s = "alphavantage" then some cfg.alphavantageKey
  else none

/-- The filter of `getComprehensiveNews`: an API is available when its key
exists and is neither of the placeholder values. -/
def sourceConfigured (cfg : ApiConfig) (s : String) : Bool :=
  match apiKeyFor cfg s with
  | some (some key) =>
    (key != "your_" ++ s ++ "_api_key_here") && (key != "your_key_here")
  | _ => false

/-- The options object of `getComprehensiveNews` with its defaults. -/
structure NewsOptions where
  limit : ℕ
  days : ℕ
  preferredSources : List String

def defaultOptions : NewsOptions :=
  { limit := 20, days := 7
    preferredSources := ["marketaux", "finnhub", "stocknewsapi"] }

/-- The four cases of the `switch` in `getComprehensiveNews`; any other
source id hits `default: continue` and produces no attempt. -/
def isAdapterName (s : String) : Bool :=
  s == "marketaux" || s == "finnhub" || s == "stocknewsapi" ||
    s == "alphavantage"

/-- The adapters actually attempted: the preferred sources that are
configured and recognized by the `switch`. -/
def attemptedSources (cfg : ApiConfig) (opts : NewsOptions) : List String :=
  (opts.preferredSources.filter (sourceConfigured cfg)).filter isAdapterName

/-- The concatenation of the article lists of all successful adapters, in
attempt order (`results.articles.push(...response.data.articles)`). -/
def mergedArticles (cfg : ApiConfig)
    (outcomes : String → Except String AdapterData) (opts : NewsOptions) :
    List Article :=
  ((attemptedSources cfg opts).filterMap (fun s =>
    match outcomes s with
    | .ok d => some d.articles
    | .error _ => none)).flatten

/-- Stable insertion step for the newest-first sort
(`sort((a, b) => new Date(b.publishedAt) - new Date(a.publishedAt))`). -/
def insertByDateDesc (a : Article) : List Article → List Article
  | [] => [a]
  | b :: rest =>
    if b.publishedAt ≤ a.publishedAt then a :: b :: rest
    else b :: insertByDateDesc a rest

def sortByDateDesc (articles : List Article) : List Article :=
  articles.foldr insertByDateDesc []

/-- `getComprehensiveNews`.  Each adapter call is wrapped with
`.then(data => ({success: true, ...})).catch(error => ({success: false,
...}))`, so an adapter outcome is a value, never a rejection; `outcomes`
gives each attempted adapter's settled outcome.  If no API is configured,
or every attempted adapter fails (or returns no articles), the result is
`getMockNews`; otherwise the merged articles are deduplicated, sorted
newest-first, truncated to `limit`, and returned together with the
per-adapter manifest and overall sentiment. -/
def getComprehensiveNews (amb : Ambient) (cfg : ApiConfig)
    (outcomes : String → Except String AdapterData)
    (symbol : String) (opts : NewsOptions) : NewsResult :=
  let attempted := attemptedSources cfg opts
  if attempted.isEmpty then getMockNews amb symbol
  else
    let responses := attempted.map (fun s => (s, outcomes s))
    let sources := responses.map (fun p =>
      match p.2 with
      | .ok d => { name := p.1, status := "success",
                   count := some d.articles.length, error := none }
      | .error e => { name := p.1, status := "error",
                      count := none, error := some e })
    let errors := responses.filterMap (fun p =>
      match p.2 with
      | .ok _ => none
      | .error e => some (p.1 ++ ": " ++ e))
    let articles := mergedArticles cfg outcomes opts
    if articles.isEmpty then getMockNews amb symbol
    else
      let finalArticles :=
        (sortByDateDesc (deduplicateArticles articles)).take opts.limit
      { symbol := symbol
        articles := finalArticles
        sources := sources
        errors := errors
        sentiment := calculateOverallSentiment finalArticles
        timestamp := amb.nowMs }

/-- Running the text scorer inside an ambient environment.  The body of
`calculateSentiment` reads no ambient state (no `Date`, no
`Math.random()`), which this wrapper makes explicit: the run ignores
`amb`. -/
def calculateSentimentRun (pf : Platform) (amb : Ambient) (text : String) :
    ℚ :=
  calculateSentiment pf text

end EnhancedNewsService

/-! ### The gainers data model shared by the three gainers services -/

/-- A normalized quote record.  `price`, `changeAmount` and `volume` hold
the numeric values that the source formats into strings (`toFixed(2)`,
`formatVolume`); `change` holds the percent number inside the
`"+x.xx%"` change string, with `none` modelling a record whose `change`
field is absent (so that `stock.change.replace(...)` throws); `volume`
is `none` for an absent or `"N/A"` volume. -/
structure Quote where
  symbol : String
  name : String
  price : ℚ
  change : Option ℚ
  changeAmount : ℚ
  changePercent : ℚ
  volume : Option ℚ
  sector : Option String
  marketCap : Option String
  source : Option String
deriving DecidableEq, Inhabited

/-- The per-symbol record the bulk sentiment analyzers store in their
result `Map` (the `lastUpdate` / `factors` extras play no role in any
claim and are omitted). -/
structure SentimentEntry where
  score : ℚ
  label : String
  confidence : ℚ
deriving DecidableEq

/-- The `for (const stock of stocks)` loop shared by the three
`analyzeBulkSentiment` implementations: each iteration computes an entry
for the stock (the `catch` branch included in `entryOf`) and stores it
under `stock.symbol` with `Map.set`.  `i` numbers the iterations so that
per-iteration `Math.random()` draws can be addressed. -/
def bulkAux (entryOf : ℕ → Quote → SentimentEntry) (i : ℕ)
    (m : List (String × SentimentEntry)) :
    List Quote → List (String × SentimentEntry)
  | [] => m
  | s :: rest => bulkAux entryOf (i + 1) (jsMapSet m s.symbol (entryOf i s)) rest

def bulkSentiment (entryOf : ℕ → Quote → SentimentEntry)
    (stocks : List Quote) : List (String × SentimentEntry) :=
  bulkAux entryOf 0 [] stocks

/-- The manifest names under which `getComprehensiveNews` reports real
adapters (the `source` loop variable of the attempt loop). -/
def adapterSourceIds : List String :=
  ["marketaux", "finnhub", "stocknewsapi", "alphavantage"]

/-- The `source` tags that the parse functions of the gainers services
attach to records built from live provider responses. -/
def liveQuoteSourceTags : List String :=
  ["yahoo_finance_realtime", "marketwatch_realtime", "cnbc_realtime",
   "polygon_realtime", "iex_realtime", "twelvedata_realtime",
   "yahoo_trending", "financialmodelingprep", "iexcloud"]

/-! ### `src/services/realTimeGainersApi.js` — `RealTimeGainersService` -/

namespace RealTimeGainersService

def getSentimentLabel (score : ℚ) : String :=
  if score > 0.2 then "Positive"
  else if score < -0.2 then "Negative"
  else "Neutral"

/-- `calculateRealTimeSentiment`: step function of the percent change,
volume bonus (skipped when the volume field is absent or `"N/A"`), and a
source-reliability bonus. -/
def calculateRealTimeSentiment (stock : Quote) (changePercent : ℚ) : ℚ :=
  let score : ℚ := 0
  let score :=
    if changePercent ≥ 10 then score + 0.95
    else if changePercent ≥ 7 then score + 0.8
    else if changePercent ≥ 5 then score + 0.65
    else if changePercent ≥ 3 then score + 0.45
    else if changePercent ≥ 2 then score + 0.25
    else if changePercent ≥ 1 then score + 0.1
    else score
  let score :=
    match stock.volume with
    | none => score
    | some volumeNum =>
      if volumeNum > 10000000 then score + 0.1
      else if volumeNum > 5000000 then score + 0.05
      else score
  score +
    (match stock.source with
     | some "yahoo_finance_realtime" => (0.1 : ℚ)
     | some "cnbc_realtime" => 0.08
     | some "polygon_realtime" => 0.06
     | some "iex_realtime" => 0.05
     | _ => 0)

/-- `getRealTimeMarketContext`: market-session score from the Eastern-time
clock plus time-of-day adjustments. -/
def getRealTimeMarketContext (amb : Ambient) : ℚ :=
  let hour := amb.ethour
  let minute := amb.etminute
  let day := amb.etday
  let isMarketHours := (hour > 9 ∨ (hour = 9 ∧ minute ≥ 30)) ∧ hour < 16
  let isMarketDay := 1 ≤ day ∧ day ≤ 5
  let contextScore : ℚ :=
    if isMarketHours ∧ isMarketDay then 0.2
    else if isMarketDay then 0.1
    else -0.1
  if isMarketHours then
    if hour = 9 then contextScore + 0.1
    else if hour = 15 ∧ minute ≥ 30 then contextScore + 0.15
    else if hour = 12 then contextScore - 0.05
    else contextScore
  else contextScore

/-- One iteration of `analyzeBulkSentiment`: parse the change string
(throwing — hence the neutral default — when the field is absent), blend
the stock score with the market context 85/15, clamp to [-1, 1]. -/
def stockEntry (amb : Ambient) (stock : Quote) : SentimentEntry :=
  match stock.change with
  | none => { score := 0, label := "Neutral", confidence := 50 }
  | some changePercent =>
    let sentimentScore := calculateRealTimeSentiment stock changePercent
    let marketContext := getRealTimeMarketContext amb
    let sentimentScore := sentimentScore * 0.85 + marketContext * 0.15
    let sentimentScore := mathMin 1 (mathMax (-1) sentimentScore)
    { score := sentimentScore
      label := getSentimentLabel sentimentScore
      confidence := mathAbs sentimentScore * 100 }

def analyzeBulkSentiment (amb : Ambient) (stocks : List Quote) :
    List (String × SentimentEntry) :=
  bulkSentiment (fun _ s => stockEntry amb s) stocks

end RealTimeGainersService

/-! ### `src/services/yahooFinanceApi.js` — `RealYahooFinanceService` -/

namespace RealYahooFinanceService

def getSentimentLabel (score : ℚ) : String :=
  if score > 0.2 then "Positive"
  else if score < -0.2 then "Negative"
  else "Neutral"

def getDefaultSentiment : SentimentEntry :=
  { score := 0, label := "Neutral", confidence := 50 }

/-- `calculateSentimentScore`: step function of the percent change, a
volume bonus (`parseVolume` yields 0 for a missing volume string, so an
absent volume earns no bonus), and a technology-sector bonus. -/
def calculateSentimentScore (changePercent : ℚ) (stock : Quote) : ℚ :=
  let score : ℚ :=
    if changePercent ≥ 5 then 0.9
    else if changePercent ≥ 4 then 0.7
    else if changePercent ≥ 3 then 0.5
    else if changePercent ≥ 2 then 0.3
    else if changePercent ≥ 1 then 0.1
    else 0
  let volumeNum := stock.volume.getD 0
  let score :=
    if volumeNum > 50000000 then score + 0.1
    else if volumeNum > 20000000 then score + 0.05
    else score
  if stock.sector = some "Technology" then score + 0.05 else score

/-- `getMarketSentiment`: reads the local hour and draws `Math.random()`
(the `draw`-th value of the ambient random stream). -/
def getMarketSentiment (amb : Ambient) (draw : ℕ) : ℚ :=
  let hour := amb.hour
  let baseScore : ℚ := if 9 ≤ hour ∧ hour ≤ 16 then 0.1 else 0
  baseScore + (amb.rand draw - 0.5) * 0.3

/-- One iteration of `analyzeBulkSentiment`: blend the metric score with
`getMarketSentiment` 80/20, clamp to [-1, 1]; a missing change field
throws and the catch stores `getDefaultSentiment`. -/
def stockEntry (amb : Ambient) (draw : ℕ) (stock : Quote) : SentimentEntry :=
  match stock.change with
  | none => getDefaultSentiment
  | some changePercent =>
    let sentimentScore := calculateSentimentScore changePercent stock
    let marketSentiment := getMarketSentiment amb draw
    let sentimentScore := sentimentScore * 0.8 + marketSentiment * 0.2
    let sentimentScore := mathMin 1 (mathMax (-1) sentimentScore)
    { score := sentimentScore
      label := getSentimentLabel sentimentScore
      confidence := mathAbs sentimentScore * 100 }

def analyzeBulkSentiment (amb : Ambient) (stocks : List Quote) :
    List (String × SentimentEntry) :=
  bulkSentiment (fun i s => stockEntry amb i s) stocks

/-- Running the metric-based base scorer inside an ambient environment.
The body of `calculateSentimentScore` reads no ambient state, which this
wrapper makes explicit: the run ignores `amb`. -/
def calculateSentimentScoreRun (amb : Ambient) (changePercent : ℚ)
    (stock : Quote) : ℚ :=
  calculateSentimentScore changePercent stock

/-- A row of the fixed company-baseline tables of the two synthetic
generators (`baseGainers` has sectors, the fallback table does not). -/
structure BaseGainer where
  symbol : String
  name : String
  basePrice : ℚ
  baseChange : ℚ
  sector : Option String
deriving DecidableEq

/-- The `baseGainers` table of `generateEnhancedMockData`. -/
def baseGainers : List BaseGainer :=
  [⟨"NVDA", "NVIDIA Corporation", 875, 4.25, some "Technology"⟩,
   ⟨"AMD", "Advanced Micro Devices Inc.", 165, 3.78, some "Technology"⟩,
   ⟨"TSLA", "Tesla Inc.", 249, 3.45, some "Automotive"⟩,
   ⟨"AAPL", "Apple Inc.", 189, 2.98, some "Technology"⟩,
   ⟨"GOOGL", "Alphabet Inc.", 142, 2.67, some "Technology"⟩,
   ⟨"MSFT", "Microsoft Corporation", 415, 2.45, some "Technology"⟩,
   ⟨"META", "Meta Platforms Inc.", 486, 2.34, some "Technology"⟩,
   ⟨"AMZN", "Amazon.com Inc.", 178, 2.12, some "E-commerce"⟩,
   ⟨"CRM", "Salesforce Inc.", 285, 1.98, some "Technology"⟩,
   ⟨"NFLX", "Netflix Inc.", 599, 1.87, some "Entertainment"⟩,
   ⟨"ADBE", "Adobe Inc.", 545, 1.76, some "Technology"⟩,
   ⟨"PYPL", "PayPal Holdings Inc.", 79, 1.65, some "Fintech"⟩,
   ⟨"INTC", "Intel Corporation", 42, 1.54, some "Technology"⟩,
   ⟨"CSCO", "Cisco Systems Inc.", 58, 1.43, some "Technology"⟩,
   ⟨"ORCL", "Oracle Corporation", 126, 1.32, some "Technology"⟩]

/-- The `baseGainers` table of `getFallbackData` (no sector column). -/
def fallbackBaseGainers : List BaseGainer :=
  [⟨"NVDA", "NVIDIA Corporation", 875, 4.25, none⟩,
   ⟨"AMD", "Advanced Micro Devices Inc.", 165, 3.78, none⟩,
   ⟨"TSLA", "Tesla Inc.", 249, 3.45, none⟩,
   ⟨"AAPL", "Apple Inc.", 189, 2.98, none⟩,
   ⟨"GOOGL", "Alphabet Inc.", 142, 2.67, none⟩,
   ⟨"MSFT", "Microsoft Corporation", 415, 2.45, none⟩,
   ⟨"META", "Meta Platforms Inc.", 486, 2.34, none⟩,
   ⟨"AMZN", "Amazon.com Inc.", 178, 2.12, none⟩,
   ⟨"CRM", "Salesforce Inc.", 285, 1.98, none⟩,
   ⟨"NFLX", "Netflix Inc.", 599, 1.87, none⟩]

/-- `generateEnhancedMockData`: perturb each baseline by time-, market-
and sector-scaled randomness; price is floored at 1 and the percent
change at 0.5 by the two `Math.max` calls.  The i-th stock consumes the
random draws 3i (price), 3i+1 (change) and 3i+2 (volume). -/
def generateEnhancedMockData (pf : Platform) (amb : Ambient) : List Quote :=
  let marketMultiplier : ℚ :=
    if (9 ≤ amb.hour ∧ amb.hour ≤ 16) ∧ (1 ≤ amb.day ∧ amb.day ≤ 5)
    then 1.2 else 0.8
  (List.enum baseGainers).map (fun p =>
    let i := p.1
    let stock := p.2
    let timeVariation := pf.msin ((amb.minute : ℚ) / 60 * pf.mpi * 2) * 0.5
    let sectorMultiplier : ℚ :=
      if stock.sector = some "Technology" then 1.3 else 1
    let priceVariation :=
      (amb.rand (3 * i) - 0.5) * 20 * marketMultiplier * sectorMultiplier
    let changeVariation :=
      (amb.rand (3 * i + 1) - 0.5) * 1 * marketMultiplier + timeVariation
    let newPrice := mathMax 1 (stock.basePrice + priceVariation)
    let newChange := mathMax 0.5 (stock.baseChange + changeVariation)
    let baseVolume : ℚ :=
      if stock.basePrice > 500 then 15000000
      else if stock.basePrice > 100 then 30000000
      else 50000000
    let volumeVariation := (amb.rand (3 * i + 2) - 0.5) * baseVolume * 0.5
    let volume := mathMax 1000000 (baseVolume + volumeVariation)
    { symbol := stock.symbol
      name := stock.name
      price := newPrice
      change := some newChange
      changeAmount := newPrice * newChange / 100
      changePercent := newChange
      volume := some volume
      sector := stock.sector
      marketCap := none
      source := some "enhanced_realistic" })

/-- `getFallbackData`: perturb each fallback baseline with unscaled
randomness; price is floored at 1, the percent change at 0.5, and volume
is `Math.floor(Math.random() * 100000000) + 5000000`. -/
def getFallbackData (amb : Ambient) : List Quote :=
  (List.enum fallbackBaseGainers).map (fun p =>
    let i := p.1
    let stock := p.2
    let priceVariation := (amb.rand (3 * i) - 0.5) * 20
    let changeVariation := (amb.rand (3 * i + 1) - 0.5) * 1
    let newPrice := mathMax 1 (stock.basePrice + priceVariation)
    let newChange := mathMax 0.5 (stock.baseChange + changeVariation)
    let volume : ℚ :=
      (((amb.rand (3 * i + 2) * 100000000).floor + 5000000 : ℤ) : ℚ)
    { symbol := stock.symbol
      name := stock.name
      price := newPrice
      change := some newChange
      changeAmount := newPrice * newChange / 100
      changePercent := newChange
      volume := some volume
      sector := none
      marketCap := none
      source := some "fallback" })

end RealYahooFinanceService

/-! ### `src/services/simpleCorsService.js` — `SimpleCorsService` -/

namespace SimpleCorsService

/-- A row of the `baseStocks` table of `generateLiveMarketData`. -/
structure ScsBaseStock where
  symbol : String
  name : String
  sector : String
  basePrice : ℚ
  baseChange : ℚ
  marketCap : String
deriving DecidableEq

def baseStocks : List ScsBaseStock :=
  [⟨"NVDA", "NVIDIA Corporation", "Technology", 875.60, 4.25, "2.1T"⟩,
   ⟨"AMD", "Advanced Micro Devices Inc.", "Technology", 165.40, 3.78, "267B"⟩,
   ⟨"TSLA", "Tesla Inc.", "Automotive", 248.90, 3.45, "792B"⟩,
   ⟨"AAPL", "Apple Inc.", "Technology", 189.45, 2.98, "2.9T"⟩,
   ⟨"GOOGL", "Alphabet Inc.", "Technology", 142.30, 2.67, "1.8T"⟩,
   ⟨"MSFT", "Microsoft Corporation", "Technology", 415.20, 2.45, "3.1T"⟩,
   ⟨"META", "Meta Platforms Inc.", "Technology", 485.75, 2.34, "1.2T"⟩,
   ⟨"AMZN", "Amazon.com Inc.", "E-commerce", 178.25, 2.12, "1.8T"⟩,
   ⟨"CRM", "Salesforce Inc.", "Software", 285.40, 1.98, "278B"⟩,
   ⟨"NFLX", "Netflix Inc.", "Entertainment", 598.75, 1.87, "258B"⟩,
   ⟨"ADBE", "Adobe Inc.", "Software", 545.30, 1.76, "245B"⟩,
   ⟨"PYPL", "PayPal Holdings Inc.", "Fintech", 78.90, 1.65, "87B"⟩,
   ⟨"INTC", "Intel Corporation", "Semiconductors", 42.15, 1.54, "171B"⟩,
   ⟨"CSCO", "Cisco Systems Inc.", "Networking", 58.20, 1.43, "237B"⟩,
   ⟨"ORCL", "Oracle Corporation", "Database", 125.80, 1.32, "354B"⟩]

/-- `isMarketHours`: 9:30 AM to 4:00 PM Eastern. -/
def isMarketHours (amb : Ambient) : Bool :=
  decide ((amb.ethour > 9 ∨ (amb.ethour = 9 ∧ amb.etminute ≥ 30)) ∧
    amb.ethour < 16)

/-- `isMarketDay`: Monday to Friday (local clock). -/
def isMarketDay (amb : Ambient) : Bool :=
  decide (1 ≤ amb.day ∧ amb.day ≤ 5)

/-- `getTimeBasedVariation`: table of the local hour.  The 3:30 PM branch
is kept in source order, where the plain `hours === 15` test shadows it. -/
def getTimeBasedVariation (amb : Ambient) : ℚ :=
  let hours := amb.hour
  let minutes := amb.minute
  if hours = 9 then 1.5
  else if hours = 10 then 1.2
  else if hours = 12 then 0.6
  else if hours = 14 ∨ hours = 15 then 1.1
  else if hours = 15 ∧ minutes ≥ 30 then 1.4
  else if hours < 9 ∨ hours > 16 then 0.4
  else 1

def getMarketBasedVariation (marketHours marketDay : Bool) : ℚ :=
  if marketHours && marketDay then 1.3
  else if marketDay && !marketHours then 0.7
  else 0.5

def getSectorVariation (sector : String) : ℚ :=
  match sector with
  | "Technology" => 1.4
  | "Semiconductors" => 1.3
  | "Software" => 1.2
  | "Automotive" => 1.1
  | "Entertainment" => 1
  | "E-commerce" => 1.1
  | "Fintech" => 0.9
  | "Networking" => 0.8
  | "Database" => 0.7
  | _ => 1

def getVolatilityVariation (symbol : String) : ℚ :=
  match symbol with
  | "TSLA" => 1.5
  | "NVDA" => 1.3
  | "AMD" => 1.3
  | "META" => 1.2
  | "NFLX" => 1.2
  | "AAPL" => 1
  | "GOOGL" => 1
  | "MSFT" => 0.9
  | "AMZN" => 1.1
  | "INTC" => 0.8
  | "CSCO" => 0.7
  | "ORCL" => 0.7
  | _ => 1

/-- Value of a digit run, for the `parseFloat` model. -/
def digitsVal (cs : List Char) : ℚ :=
  cs.foldl (fun a c => a * 10 + ((c.toNat - 48 : ℕ) : ℚ)) 0

/-- `parseFloat` restricted to the market-cap strings used here
("2.1T", "267B", ...): value of the leading digits-and-dot run. -/
def parseLeadingRat (s : String) : ℚ :=
  let cs := s.toList.takeWhile (fun c => c.isDigit || c = '.')
  let intPart := cs.takeWhile (fun c => c.isDigit)
  let fracPart := (cs.drop (intPart.length + 1)).takeWhile (fun c => c.isDigit)
  digitsVal intPart + digitsVal fracPart / ((10 : ℚ) ^ fracPart.length)

/-- `generateRealisticVolume`: base volume from the market-cap tier,
scaled by market hours and change magnitude, jittered by one random draw,
floored, and clamped below by 1,000,000. -/
def generateRealisticVolume (marketCapStr : String) (marketHours : Bool)
    (changePercent : ℚ) (randDraw : ℚ) : ℚ :=
  let baseVolume : ℚ :=
    if strContains marketCapStr "T" then 20000000
    else if strContains marketCapStr "B" then
      let capValue := parseLeadingRat marketCapStr
      if capValue > 500 then 25000000
      else if capValue > 100 then 35000000
      else 50000000
    else 10000000
  let baseVolume := if marketHours then baseVolume * 1.5 else baseVolume
  let changeMultiplier := 1 + changePercent / 100
  let baseVolume := baseVolume * changeMultiplier
  let variation := (randDraw - 0.5) * 0.6
  let baseVolume := baseVolume * (1 + variation)
  mathMax 1000000 ((baseVolume.floor : ℤ) : ℚ)

/-- `generateLiveMarketData`: perturb each baseline by the averaged
time/market/sector/volatility variation; price is floored at 1, the
percent change at 0.1, and the volume at 1,000,000.  The i-th stock
consumes the random draws 3i (price), 3i+1 (change) and 3i+2 (volume). -/
def generateLiveMarketData (amb : Ambient) : List Quote :=
  let marketHours := isMarketHours amb
  let marketDay := isMarketDay amb
  (List.enum baseStocks).map (fun p =>
    let i := p.1
    let stock := p.2
    let timeVariation := getTimeBasedVariation amb
    let marketVariation := getMarketBasedVariation marketHours marketDay
    let sectorVariation := getSectorVariation stock.sector
    let volatilityVariation := getVolatilityVariation stock.symbol
    let totalVariation :=
      (timeVariation + marketVariation + sectorVariation +
        volatilityVariation) / 4
    let priceVariation := (amb.rand (3 * i) - 0.5) * 30 * totalVariation
    let changeVariation := (amb.rand (3 * i + 1) - 0.5) * 2 * totalVariation
    let newPrice := mathMax 1 (stock.basePrice + priceVariation)
    let newChange := mathMax 0.1 (stock.baseChange + changeVariation)
    let volume := generateRealisticVolume stock.marketCap marketHours
      newChange (amb.rand (3 * i + 2))
    { symbol := stock.symbol
      name := stock.name
      price := newPrice
      change := some newChange
      changeAmount := newPrice * newChange / 100
      changePercent := newChange
      volume := some volume
      sector := some stock.sector
      marketCap := some stock.marketCap
      source := some "enhanced_realistic" })

def getSentimentLabel (score : ℚ) : String :=
  if score > 0.2 then "Positive"
  else if score < -0.2 then "Negative"
  else "Neutral"

/-- `calculateAdvancedSentiment`: step function of the percent change,
volume and sector bonuses, and a large-cap dampener. -/
def calculateAdvancedSentiment (stock : Quote) (changePercent : ℚ) : ℚ :=
  let score : ℚ :=
    if changePercent ≥ 5 then 0.9
    else if changePercent ≥ 4 then 0.7
    else if changePercent ≥ 3 then 0.5
    else if changePercent ≥ 2 then 0.3
    else if changePercent ≥ 1 then 0.1
    else 0
  let volumeNum := stock.volume.getD 0
  let score :=
    if volumeNum > 50000000 then score + 0.15
    else if volumeNum > 25000000 then score + 0.1
    else if volumeNum > 10000000 then score + 0.05
    else score
  let score := score +
    (match stock.sector with
     | some "Technology" => (0.1 : ℚ)
     | some "Semiconductors" => 0.08
     | some "Software" => 0.06
     | some "E-commerce" => 0.04
     | some "Fintech" => 0.02
     | _ => 0)
  match stock.marketCap with
  | some cap => if strContains cap "T" then score * 0.9 else score
  | none => score

/-- `getMarketSentimentContext`: market-session score plus a sinusoidal
time-of-day variation (`Math.sin(hours / 24 * Math.PI * 2) * 0.1`). -/
def getMarketSentimentContext (pf : Platform) (amb : Ambient) : ℚ :=
  let contextScore : ℚ :=
    if isMarketHours amb && isMarketDay amb then 0.1
    else if isMarketDay amb then 0.05
    else -0.05
  let timeVariation := pf.msin ((amb.hour : ℚ) / 24 * pf.mpi * 2) * 0.1
  contextScore + timeVariation

/-- One iteration of `analyzeBulkSentiment`: blend the stock score with
the market context 80/20, clamp to [-1, 1]; a missing change field throws
and the catch stores the neutral default. -/
def stockEntry (pf : Platform) (amb : Ambient) (stock : Quote) :
    SentimentEntry :=
  match stock.change with
  | none => { score := 0, label := "Neutral", confidence := 50 }
  | some changePercent =>
    let sentimentScore := calculateAdvancedSentiment stock changePercent
    let marketContext := getMarketSentimentContext pf amb
    let sentimentScore := sentimentScore * 0.8 + marketContext * 0.2
    let sentimentScore := mathMin 1 (mathMax (-1) sentimentScore)
    { score := sentimentScore
      label := getSentimentLabel sentimentScore
      confidence := mathAbs sentimentScore * 100 }

def analyzeBulkSentiment (pf : Platform) (amb : Ambient)
    (stocks : List Quote) : List (String × SentimentEntry) :=
  bulkSentiment (fun _ s => stockEntry pf amb s) stocks

end SimpleCorsService

/-! ### Concrete fixtures used by the counterexamples and witnesses -/

/-- A concrete platform: any rational-valued model of the float library
functions will do for the facts below. -/
def pf0 : Platform :=
  { msqrt := fun q => q, msin := fun _ => 0, mpi := 3.141592653589793 }

/-- A concrete ambient state: Monday 10:00 local and Eastern time, with
every `Math.random()` draw equal to 1/2. -/
def amb0 : Ambient :=
  { nowMs := 0, hour := 10, minute := 0, day := 1,
    ethour := 10, etminute := 0, etday := 1, rand := fun _ => 0.5 }

/-- Same clock as `amb0`, but every `Math.random()` draw is 0. -/
def amb0r : Ambient := { amb0 with rand := fun _ => 0 }

/-- Same as `amb0` except the local minute, which none of the scorers
read. -/
def amb0m : Ambient := { amb0 with minute := 59 }

/-- An article as normalized from one provider. -/
def artR : EnhancedNewsService.Article :=
  { id := "1", title := "Apple Stock Surges", description := "",
    source := "Reuters", publishedAt := 0, url := "",
    sentiment := 0, category := "market", confidence := 0 }

/-- The same title as `artR` from a different source. -/
def artB : EnhancedNewsService.Article :=
  { artR with id := "2", source := "Bloomberg" }

/-- The same title and source as `artR` (a genuine duplicate). -/
def artR2 : EnhancedNewsService.Article :=
  { artR with id := "3" }

/-- Fifty-one pairwise distinct cache keys. -/
def keys51 : List String := (List.range 51).map (fun n => toString n)

/-- A configuration in which exactly one adapter (Marketaux) has a real
key. -/
def cfgC1 : EnhancedNewsService.ApiConfig :=
  { marketauxKey := some "real_key", finnhubKey := none,
    stocknewsKey := none, alphavantageKey := none }

/-- Settled adapter outcomes in which every attempted adapter failed. -/
def outcomesC1 : String → Except String EnhancedNewsService.AdapterData :=
  fun _ => .error "network down"

/-- Settled adapter outcomes in which Marketaux succeeded with one
article. -/
def outcomesC1W : String → Except String EnhancedNewsService.AdapterData :=
  fun s =>
    if s == "marketaux" then .ok { source := "Marketaux", articles := [artR] }
    else .error "not attempted"

/-- An Alpha Vantage response whose single feed item reports the
out-of-range sentiment score 5. -/
def avRespC5 : EnhancedNewsService.AVResponse :=
  { errorMessage := none, information := none,
    feed := [{ url := "https://example.com/a", title := "T",
               summary := none, source := "SomeWire", publishedAt := 0,
               overall_sentiment_score := some 5, relevance_score := none }] }

/-- A configuration in which exactly Alpha Vantage has a real key. -/
def cfgC5 : EnhancedNewsService.ApiConfig :=
  { marketauxKey := none, finnhubKey := none, stocknewsKey := none,
    alphavantageKey := some "real_key" }

/-- Options preferring only the Alpha Vantage adapter. -/
def optsC5 : EnhancedNewsService.NewsOptions :=
  { limit := 20, days := 7, preferredSources := ["alphavantage"] }

/-- Settled outcomes in which Alpha Vantage resolved with `avRespC5`. -/
def outcomesC5 : String → Except String EnhancedNewsService.AdapterData :=
  fun s =>
    if s = "alphavantage" then
      EnhancedNewsService.fetchFromAlphaVantageMap avRespC5
    else .error "not attempted"

/-- The adapter data `fetchFromAlphaVantageMap` produces on `avRespC5`
(spelled out so the success hypothesis is discharged by `rfl`). -/
def avDataC5 : EnhancedNewsService.AdapterData :=
  { source := "Alpha Vantage"
    articles := avRespC5.feed.map (fun item =>
      { id := item.url
        title := item.title
        description := item.summary.getD ""
        source := item.source
        publishedAt := item.publishedAt
        url := item.url
        sentiment := item.overall_sentiment_score.getD 0
        category := EnhancedNewsService.categorizeNews item.title
        confidence := mathAbs (item.overall_sentiment_score.getD 0) * 100 }) }

/-- A gainer record with percent change 3 and moderate volume, used to
probe the metric-based scorer on fixed metrics. -/
def qC4 : Quote :=
  { symbol := "NVDA", name := "NVIDIA Corporation", price := 100,
    change := some 3, changeAmount := 3, changePercent := 3,
    volume := some 1000000, sector := none, marketCap := none, source := none }

/-- A record whose `change` field is absent, so processing it throws. -/
def qFail : Quote :=
  { symbol := "ZZZ", name := "Unknown", price := 1,
    change := none, changeAmount := 0, changePercent := 0,
    volume := none, sector := none, marketCap := none, source := none }

/-! ### Helper lemmas about the JS `Map` model -/

theorem jsMapGet_set_self {β : Type} (m : List (String × β)) (k : String)
    (v : β) : jsMapGet (jsMapSet m k v) k = some v := by
  induction m with
  | nil => simp [jsMapSet, jsMapGet]
  | cons p rest ih =>
    obtain ⟨k', v'⟩ := p
    by_cases h : k' = k
    · simp [jsMapSet, jsMapGet, h]
    · simp [jsMapSet, jsMapGet, h, ih]

theorem jsMapGet_set_ne {β : Type} (m : List (String × β)) (k k' : String)
    (v : β) (h : k ≠ k') : jsMapGet (jsMapSet m k v) k' = jsMapGet m k' := by
  induction m with
  | nil => simp [jsMapSet, jsMapGet, h]
  | cons p rest ih =>
    obtain ⟨k0, v0⟩ := p
    by_cases h0 : k0 = k
    · subst h0
      simp [jsMapSet, jsMapGet, h]
    · simp [jsMapSet, jsMapGet, h0, ih]

theorem jsMapGet_eq_none_of_not_mem {β : Type} (m : List (String × β))
    (k : String) (h : k ∉ m.map Prod.fst) : jsMapGet m k = none := by
  induction m with
  | nil => rfl
  | cons p rest ih =>
    obtain ⟨k', v'⟩ := p
    simp only [List.map_cons, List.mem_cons, not_or] at h
    have h1 : ¬ k' = k := fun hh => h.1 hh.symm
    simp [jsMapGet, h1, ih h.2]

theorem jsMapDelete_get_self {β : Type} (m : List (String × β)) (k : String)
    (h : (m.map Prod.fst).Nodup) : jsMapGet (jsMapDelete m k) k = none := by
  induction m with
  | nil => rfl
  | cons p rest ih =>
    obtain ⟨k', v'⟩ := p
    simp only [List.map_cons, List.nodup_cons] at h
    by_cases hk : k' = k
    · subst hk
      simpa [jsMapDelete] using jsMapGet_eq_none_of_not_mem rest k' h.1
    · simp [jsMapDelete, jsMapGet, hk, ih h.2]

theorem jsMapSet_keys {β : Type} (m : List (String × β)) (k : String)
    (v : β) :
    (jsMapSet m k v).map Prod.fst =
      if k ∈ m.map Prod.fst then m.map Prod.fst
      else m.map Prod.fst ++ [k] := by
  induction m with
  | nil => simp [jsMapSet]
  | cons p rest ih =>
    obtain ⟨k', v'⟩ := p
    by_cases h : k' = k
    · simp [jsMapSet, h]
    · have h1 : ¬ k = k' := fun hh => h hh.symm
      simp only [jsMapSet, if_neg h, List.map_cons, ih]
      by_cases hm : k ∈ rest.map Prod.fst
      · simp [hm, h1]
      · simp [hm, h1]

theorem jsMapSet_mem_keys {β : Type} (m : List (String × β)) (k sym : String)
    (v : β) :
    sym ∈ (jsMapSet m k v).map Prod.fst ↔
      sym ∈ m.map Prod.fst ∨ sym = k := by
  rw [jsMapSet_keys]
  by_cases h : k ∈ m.map Prod.fst
  · simp only [if_pos h]
    constructor
    · exact Or.inl
    · rintro (hs | rfl)
      · exact hs
      · exact h
  · simp [if_neg h]

theorem jsMapSet_keys_nodup {β : Type} (m : List (String × β)) (k : String)
    (v : β) (h : (m.map Prod.fst).Nodup) :
    ((jsMapSet m k v).map Prod.fst).Nodup := by
  rw [jsMapSet_keys]
  by_cases hm : k ∈ m.map Prod.fst
  · simpa [hm] using h
  · simp only [if_neg hm]
    simp [List.nodup_append, h, hm]

theorem jsMapSet_fresh {β : Type} (m : List (String × β)) (k : String)
    (v : β) (h : k ∉ m.map Prod.fst) : jsMapSet m k v = m ++ [(k, v)] := by
  induction m with
  | nil => rfl
  | cons p rest ih =>
    obtain ⟨k', v'⟩ := p
    simp only [List.map_cons, List.mem_cons, not_or] at h
    have h1 : ¬ k' = k := fun hh => h.1 hh.symm
    simp [jsMapSet, h1, ih h.2]

theorem jsMapGet_set_cases {β : Type} (m : List (String × β))
    (k k' : String) (v e : β) (h : jsMapGet (jsMapSet m k v) k' = some e) :
    e = v ∨ jsMapGet m k' = some e := by
  by_cases hk : k = k'
  · subst hk
    rw [jsMapGet_set_self] at h
    exact Or.inl (Option.some.injEq .. ▸ h.symm ▸ rfl)
  · rw [jsMapGet_set_ne m k k' v hk] at h
    exact Or.inr h

/-! ### Helper lemmas about `Math.max` / `Math.min` and the caches -/

theorem le_mathMax_left (a b : ℚ) : a ≤ mathMax a b := by
  unfold mathMax; split <;> simp_all

theorem mathMax_le (a b c : ℚ) (h1 : a ≤ c) (h2 : b ≤ c) :
    mathMax a b ≤ c := by
  unfold mathMax; split <;> assumption

theorem mathMin_le_left (a b : ℚ) : mathMin a b ≤ a := by
  unfold mathMin; split <;> simp_all [le_of_not_le]

theorem le_mathMin (a b c : ℚ) (h1 : c ≤ a) (h2 : c ≤ b) :
    c ≤ mathMin a b := by
  unfold mathMin; split <;> assumption

theorem cacheSet_get_self {α : Type} (cap : ℕ) (store : CacheStore α)
    (k : String) (v : α) (T : ℤ) :
    jsMapGet (evictingSet cap store k v T) k = some ⟨v, T⟩ :=
  jsMapGet_set_self (if cap ≤ store.length then List.tail store else store)
    k ⟨v, T⟩

theorem cacheSet_keys_nodup {α : Type} (cap : ℕ) (store : CacheStore α)
    (k : String) (v : α) (T : ℤ) (h : (store.map Prod.fst).Nodup) :
    ((evictingSet cap store k v T).map Prod.fst).Nodup := by
  unfold evictingSet
  apply jsMapSet_keys_nodup
  split
  · rw [List.map_tail]
    exact List.Nodup.sublist (List.tail_sublist _) h
  · exact h

theorem evictingSet_fresh {α : Type} (cap : ℕ) (store : CacheStore α)
    (k : String) (v : α) (now : ℤ) (hk : k ∉ store.map Prod.fst)
    (hlen : store.length < cap) :
    evictingSet cap store k v now = store ++ [(k, ⟨v, now⟩)] := by
  unfold evictingSet
  rw [if_neg (by omega)]
  exact jsMapSet_fresh store k ⟨v, now⟩ hk

theorem foldl_evictingSet_fresh {α : Type} (cap : ℕ) (v : α) (now : ℤ) :
    ∀ (ks : List String) (store : CacheStore α), ks.Nodup →
      (∀ k ∈ ks, k ∉ store.map Prod.fst) →
      store.length + ks.length ≤ cap →
      ks.foldl (fun st k => evictingSet cap st k v now) store =
        store ++ ks.map (fun k => (k, ⟨v, now⟩)) := by
  intro ks
  induction ks with
  | nil => intro store _ _ _; simp
  | cons k rest ih =>
    intro store hN hfresh hlen
    have hk : k ∉ store.map Prod.fst := hfresh k (List.mem_cons_self k rest)
    have hlt : store.length < cap := by
      simp only [List.length_cons] at hlen; omega
    have hstep := evictingSet_fresh cap store k v now hk hlt
    have hfresh2 : ∀ k2 ∈ rest,
        k2 ∉ (store ++ [(k, (⟨v, now⟩ : CacheItem α))]).map Prod.fst := by
      intro k2 hk2
      simp only [List.map_append, List.mem_append, List.map_cons,
        List.map_nil, List.mem_singleton, not_or]
      exact ⟨hfresh k2 (List.mem_cons_of_mem k hk2),
        fun hh => (List.nodup_cons.mp hN).1 (hh ▸ hk2)⟩
    have hlen2 :
        (store ++ [(k, (⟨v, now⟩ : CacheItem α))]).length + rest.length ≤
          cap := by
      simp only [List.length_append, List.length_cons, List.length_nil]
      simp only [List.length_cons] at hlen
      omega
    have ih2 := ih (store ++ [(k, (⟨v, now⟩ : CacheItem α))])
      (List.nodup_cons.mp hN).2 hfresh2 hlen2
    simp only [List.foldl_cons, hstep, ih2, List.map_cons,
      List.append_assoc, List.singleton_append]

theorem foldl_jsMapSetEntry_fresh {α : Type} (v : α) (now : ℤ) :
    ∀ (ks : List String) (store : CacheStore α), ks.Nodup →
      (∀ k ∈ ks, k ∉ store.map Prod.fst) →
      ks.foldl (fun st k => jsMapSet st k ⟨v, now⟩) store =
        store ++ ks.map (fun k => (k, ⟨v, now⟩)) := by
  intro ks
  induction ks with
  | nil => intro store _ _; simp
  | cons k rest ih =>
    intro store hN hfresh
    have hk : k ∉ store.map Prod.fst := hfresh k (List.mem_cons_self k rest)
    have hfresh2 : ∀ k2 ∈ rest,
        k2 ∉ (store ++ [(k, (⟨v, now⟩ : CacheItem α))]).map Prod.fst := by
      intro k2 hk2
      simp only [List.map_append, List.mem_append, List.map_cons,
        List.map_nil, List.mem_singleton, not_or]
      exact ⟨hfresh k2 (List.mem_cons_of_mem k hk2),
        fun hh => (List.nodup_cons.mp hN).1 (hh ▸ hk2)⟩
    have ih2 := ih (store ++ [(k, (⟨v, now⟩ : CacheItem α))])
      (List.nodup_cons.mp hN).2 hfresh2
    simp only [List.foldl_cons, jsMapSet_fresh store k _ hk, ih2,
      List.map_cons, List.append_assoc, List.singleton_append]

theorem map_fst_entry {α : Type} (v : α) (now : ℤ) (l : List String) :
    (l.map (fun k => (k, (⟨v, now⟩ : CacheItem α)))).map Prod.fst = l := by
  induction l with
  | nil => rfl
  | cons a as ih => simp [ih]

theorem foldl_evictingSet_capacity {α : Type} (v : α) (now : ℤ)
    (ks : List String) (hN : ks.Nodup) (hL : ks.length = 51) :
    (ks.foldl (fun st k => evictingSet 50 st k v now) []).map Prod.fst =
      ks.tail := by
  have hne : ks ≠ [] := by intro h; subst h; simp at hL
  obtain ⟨l, x, hdecomp⟩ : ∃ l x, l ++ [x] = ks :=
    ⟨ks.dropLast, ks.getLast hne, List.dropLast_append_getLast hne⟩
  subst hdecomp
  have hlen : l.length = 50 := by
    simp only [List.length_append, List.length_cons, List.length_nil] at hL
    omega
  have hNl : l.Nodup := (List.nodup_append.mp hN).1
  have hxl : x ∉ l := by
    intro hmem
    exact (List.nodup_append.mp hN).2.2 hmem (List.mem_singleton_self x)
  have hfold : l.foldl (fun st k => evictingSet 50 st k v now) [] =
      l.map (fun k => (k, (⟨v, now⟩ : CacheItem α))) := by
    have := foldl_evictingSet_fresh 50 v now l [] hNl (by simp)
      (by simp [hlen])
    simpa using this
  rw [List.foldl_append, hfold]
  simp only [List.foldl_cons, List.foldl_nil]
  have hev : evictingSet 50 (l.map (fun k => (k, (⟨v, now⟩ : CacheItem α))))
      x v now =
      jsMapSet ((l.map (fun k => (k, (⟨v, now⟩ : CacheItem α)))).tail) x
        ⟨v, now⟩ := by
    show jsMapSet (if 50 ≤ (l.map (fun k =>
        (k, (⟨v, now⟩ : CacheItem α)))).length then
        (l.map (fun k => (k, (⟨v, now⟩ : CacheItem α)))).tail
      else l.map (fun k => (k, (⟨v, now⟩ : CacheItem α)))) x ⟨v, now⟩ = _
    rw [if_pos (by simp [hlen])]
  rw [hev]
  have htail : (l.map (fun k => (k, (⟨v, now⟩ : CacheItem α)))).tail =
      l.tail.map (fun k => (k, (⟨v, now⟩ : CacheItem α))) :=
    (List.map_tail _ l).symm
  rw [htail, jsMapSet_fresh]
  · rw [List.map_append, map_fst_entry]
    cases l with
    | nil => simp at hlen
    | cons a as => simp
  · rw [map_fst_entry]
    intro hmem
    exact hxl (List.mem_of_mem_tail hmem)

/-! ### Helper lemmas about the bulk-sentiment loop -/

theorem bulkAux_mem_keys (entryOf : ℕ → Quote → SentimentEntry) :
    ∀ (stocks : List Quote) (i : ℕ) (m : List (String × SentimentEntry))
      (sym : String),
      sym ∈ (bulkAux entryOf i m stocks).map Prod.fst ↔
        sym ∈ m.map Prod.fst ∨ sym ∈ stocks.map Quote.symbol := by
  intro stocks
  induction stocks with
  | nil => intro i m sym; simp [bulkAux]
  | cons s rest ih =>
    intro i m sym
    simp only [bulkAux, ih, jsMapSet_mem_keys, List.map_cons, List.mem_cons]
    tauto

theorem bulkAux_keys_nodup (entryOf : ℕ → Quote → SentimentEntry) :
    ∀ (stocks : List Quote) (i : ℕ) (m : List (String × SentimentEntry)),
      (m.map Prod.fst).Nodup →
      ((bulkAux entryOf i m stocks).map Prod.fst).Nodup := by
  intro stocks
  induction stocks with
  | nil => intro i m h; exact h
  | cons s rest ih =>
    intro i m h
    exact ih (i + 1) _ (jsMapSet_keys_nodup m s.symbol _ h)

theorem bulkAux_get_not_mem (entryOf : ℕ → Quote → SentimentEntry) :
    ∀ (stocks : List Quote) (i : ℕ) (m : List (String × SentimentEntry))
      (sym : String), sym ∉ stocks.map Quote.symbol →
      jsMapGet (bulkAux entryOf i m stocks) sym = jsMapGet m sym := by
  intro stocks
  induction stocks with
  | nil => intro i m sym _; rfl
  | cons s rest ih =>
    intro i m sym h
    simp only [List.map_cons, List.mem_cons, not_or] at h
    rw [bulkAux, ih (i + 1) _ sym h.2,
      jsMapGet_set_ne m s.symbol sym _ (fun hh => h.1 hh.symm)]

theorem bulkAux_get_of_mem (entryOf : ℕ → Quote → SentimentEntry)
    (e : SentimentEntry) :
    ∀ (stocks : List Quote) (i : ℕ) (m : List (String × SentimentEntry))
      (s : Quote), s ∈ stocks → (stocks.map Quote.symbol).Nodup →
      (∀ j, entryOf j s = e) →
      jsMapGet (bulkAux entryOf i m stocks) s.symbol = some e := by
  intro stocks
  induction stocks with
  | nil => intro i m s hs; exact absurd hs (List.not_mem_nil s)
  | cons t rest ih =>
    intro i m s hs hN he
    simp only [List.map_cons, List.nodup_cons] at hN
    rcases List.mem_cons.mp hs with rfl | hs'
    · rw [bulkAux, bulkAux_get_not_mem entryOf rest (i + 1) _ s.symbol hN.1,
        jsMapGet_set_self, he i]
    · exact ih (i + 1) _ s hs' hN.2 he

theorem bulkAux_values (entryOf : ℕ → Quote → SentimentEntry)
    (P : SentimentEntry → Prop) (hP : ∀ i s, P (entryOf i s)) :
    ∀ (stocks : List Quote) (i : ℕ) (m : List (String × SentimentEntry)),
      (∀ k e, jsMapGet m k = some e → P e) →
      ∀ k e, jsMapGet (bulkAux entryOf i m stocks) k = some e → P e := by
  intro stocks
  induction stocks with
  | nil => intro i m hm k e hget; exact hm k e hget
  | cons s rest ih =>
    intro i m hm k e hget
    refine ih (i + 1) _ ?_ k e hget
    intro k2 e2 hget2
    rcases jsMapGet_set_cases m s.symbol k2 _ e2 hget2 with rfl | h2
    · exact hP i s
    · exact hm k2 e2 h2

/-! ### The claims -/

/-- C2: every record in the synthetic results carries a provenance/source
tag distinguishing it from live-provider data: each `getMockNews` article
has a source starting with `"Demo "` that is none of the adapter ids, the
mock manifest is the single `Demo Data` entry (not a real adapter name),
and every quote of `generateLiveMarketData` carries the
`enhanced_realistic` tag, which is none of the tags the parse functions
attach to live provider responses. -/
theorem C2_provenance (amb : Ambient) (symbol : String) :
    ((EnhancedNewsService.getMockNews amb symbol).articles.all
      (fun a => strStartsWith a.source "Demo " &&
        !(adapterSourceIds.contains a.source))) = true ∧
    (EnhancedNewsService.getMockNews amb symbol).sources.map
      (fun e => e.name) = ["Demo Data"] ∧
    adapterSourceIds.contains "Demo Data" = false ∧
    ((SimpleCorsService.generateLiveMarketData amb).all
      (fun q => q.source == some "enhanced_realistic")) = true ∧
    liveQuoteSourceTags.contains "enhanced_realistic" = false :=
  ⟨rfl, rfl, rfl, rfl, rfl⟩

/-- C3 counterexample: two articles with the same (hence same normalized
prefix) title but different source names get different deduplication keys,
so `deduplicateArticles` keeps both of them, not exactly one. -/
theorem C3_counterexample :
    artR.title = artB.title ∧ artR.source ≠ artB.source ∧
    EnhancedNewsService.deduplicateArticles [artR, artB] = [artR, artB] ∧
    (EnhancedNewsService.deduplicateArticles [artR, artB]).length ≠ 1 := by
  refine ⟨rfl, by decide, by decide, by decide⟩

/-- C3 amended: the deduplication key combines the normalized title prefix
with the source name, so of two articles it keeps only the first exactly
when both the title prefix and the source agree; with differing keys (in
particular differing sources) both are kept. -/
theorem C3_amended (a b : EnhancedNewsService.Article) :
    (EnhancedNewsService.dedupKey a = EnhancedNewsService.dedupKey b →
      EnhancedNewsService.deduplicateArticles [a, b] = [a]) ∧
    (EnhancedNewsService.dedupKey a ≠ EnhancedNewsService.dedupKey b →
      EnhancedNewsService.deduplicateArticles [a, b] = [a, b]) := by
  constructor
  · intro h
    simp [EnhancedNewsService.deduplicateArticles,
      EnhancedNewsService.dedupAux, h]
  · intro h
    have h2 : ¬ EnhancedNewsService.dedupKey b =
        EnhancedNewsService.dedupKey a := fun hh => h hh.symm
    simp [EnhancedNewsService.deduplicateArticles,
      EnhancedNewsService.dedupAux, h2]

/-- C3 amended, witnessed at concrete articles: a same-title same-source
pair collapses to the first record, a same-title different-source pair is
kept whole. -/
theorem C3_amended_witness :
    EnhancedNewsService.deduplicateArticles [artR, artR2] = [artR] ∧
    EnhancedNewsService.deduplicateArticles [artR, artB] = [artR, artB] :=
  ⟨(C3_amended artR artR2).1 (by decide),
   (C3_amended artR artB).2 (by decide)⟩

/-- C8 helper: running the deduplication filter twice over the same seen
set is the same as running it once. -/
theorem dedupAux_idem (xs : List EnhancedNewsService.Article) :
    ∀ seen, EnhancedNewsService.dedupAux seen
      (EnhancedNewsService.dedupAux seen xs) =
      EnhancedNewsService.dedupAux seen xs := by
  induction xs with
  | nil => intro seen; rfl
  | cons a rest ih =>
    intro seen
    by_cases h : EnhancedNewsService.dedupKey a ∈ seen
    · simp only [EnhancedNewsService.dedupAux, if_pos h]
      exact ih seen
    · simp only [EnhancedNewsService.dedupAux, if_neg h]
      exact congrArg (List.cons a)
        (ih (EnhancedNewsService.dedupKey a :: seen))

/-- C8: deduplication is idempotent — running `deduplicateArticles` on its
own output returns that output unchanged. -/
theorem C8_dedup_idempotent (articles : List EnhancedNewsService.Article) :
    EnhancedNewsService.deduplicateArticles
      (EnhancedNewsService.deduplicateArticles articles) =
      EnhancedNewsService.deduplicateArticles articles :=
  dedupAux_idem articles []

/-- C7: the TTL round-trip law of the `helpers.js` cache.  After
`cache.set(k, v)` at time `T`, a `cache.get(k)` at time `t` with
`t - T ≤ CACHE_DURATION` returns exactly `v`, and one with
`t - T > CACHE_DURATION` returns `null` and removes the entry.  The
`Nodup` hypothesis is the key-uniqueness invariant of a JS `Map`. -/
theorem C7_cache_ttl {α : Type} (store : CacheStore α) (k : String) (v : α)
    (T t : ℤ) (hN : (store.map Prod.fst).Nodup) :
    (t - T ≤ Helpers.CACHE_DURATION →
      (Helpers.cacheGet (Helpers.cacheSet store k v T) k t).1 = some v) ∧
    (Helpers.CACHE_DURATION < t - T →
      (Helpers.cacheGet (Helpers.cacheSet store k v T) k t).1 = none ∧
      jsMapGet (Helpers.cacheGet (Helpers.cacheSet store k v T) k t).2 k =
        none) := by
  have hget : jsMapGet (Helpers.cacheSet store k v T) k = some ⟨v, T⟩ :=
    cacheSet_get_self Helpers.MAX_CACHE_SIZE store k v T
  have hnodup : ((Helpers.cacheSet store k v T).map Prod.fst).Nodup :=
    cacheSet_keys_nodup Helpers.MAX_CACHE_SIZE store k v T hN
  constructor
  · intro h
    simp only [Helpers.cacheGet, hget]
    rw [if_neg (by omega)]
  · intro h
    simp only [Helpers.cacheGet, hget]
    rw [if_pos (by omega)]
    exact ⟨rfl, jsMapDelete_get_self _ k hnodup⟩

/-- C7 witnessed concretely: a payload written at time 0 is still read at
time 300000 (five minutes), and is a miss with the entry removed at time
300001. -/
theorem C7_cache_ttl_witness :
    (Helpers.cacheGet (Helpers.cacheSet ([] : CacheStore String) "k" "v" 0)
      "k" 300000).1 = some "v" ∧
    (Helpers.cacheGet (Helpers.cacheSet ([] : CacheStore String) "k" "v" 0)
      "k" 300001).1 = none ∧
    jsMapGet (Helpers.cacheGet (Helpers.cacheSet ([] : CacheStore String)
      "k" "v" 0) "k" 300001).2 "k" = none :=
  ⟨(C7_cache_ttl [] "k" "v" 0 300000 (by decide)).1 (by decide),
   ((C7_cache_ttl [] "k" "v" 0 300001 (by decide)).2 (by decide)).1,
   ((C7_cache_ttl [] "k" "v" 0 300001 (by decide)).2 (by decide)).2⟩

/-- C6 counterexample: the cache of `RealTimeGainersService` has no
capacity bound at all — after inserting 51 distinct keys (one more than
the 50-entry bound every bounded cache of the engine uses), all 51
entries are present and the first-inserted key was not evicted. -/
theorem C6_counterexample :
    keys51.length = Helpers.MAX_CACHE_SIZE + 1 ∧
    (keys51.foldl (fun st k =>
      RealTimeGainersService.setCached st k "payload" 0) []).map Prod.fst =
      keys51 := by
  constructor
  · decide
  · have := foldl_jsMapSetEntry_fresh "payload" 0 keys51 [] (by decide)
      (by simp)
    simp only [RealTimeGainersService.setCached]
    rw [this]
    simpa using map_fst_entry "payload" 0 keys51

/-- C6 amended: inserting `capacity + 1 = 51` distinct keys evicts exactly
the first-inserted key in the two capacity-bounded caches (`helpers.js`
and `RealYahooFinanceService`, both bounded at 50), while the caches of
`RealTimeGainersService` and `SimpleCorsService` have no capacity bound
and never evict on insertion. -/
theorem C6_amended {α : Type} (v : α) (now : ℤ) (ks : List String)
    (hN : ks.Nodup) (hL : ks.length = 51) :
    ((ks.foldl (fun st k => Helpers.cacheSet st k v now) []).map Prod.fst =
      ks.tail) ∧
    ((ks.foldl (fun st k => RealYahooFinanceService.setCached st k v now)
      []).map Prod.fst = ks.tail) ∧
    ((ks.foldl (fun st k => RealTimeGainersService.setCached st k v now)
      []).map Prod.fst = ks) ∧
    ((ks.foldl (fun st k => SimpleCorsService.setCached st k v now)
      []).map Prod.fst = ks) := by
  have hcap := foldl_evictingSet_capacity v now ks hN hL
  have hflat := foldl_jsMapSetEntry_fresh v now ks [] hN (by simp)
  refine ⟨?_, ?_, ?_, ?_⟩
  · simpa only [Helpers.cacheSet, Helpers.MAX_CACHE_SIZE] using hcap
  · simpa only [RealYahooFinanceService.setCached,
      RealYahooFinanceService.maxCacheSize] using hcap
  · simp only [RealTimeGainersService.setCached]
    rw [hflat]
    simpa using map_fst_entry v now ks
  · simp only [SimpleCorsService.setCached]
    rw [hflat]
    simpa using map_fst_entry v now ks

/-- C6 amended, witnessed on 51 concrete distinct keys. -/
theorem C6_amended_witness :
    ((keys51.foldl (fun st k => Helpers.cacheSet st k "payload" 0) []).map
      Prod.fst = keys51.tail) ∧
    ((keys51.foldl (fun st k =>
      RealYahooFinanceService.setCached st k "payload" 0) []).map Prod.fst =
      keys51.tail) ∧
    ((keys51.foldl (fun st k =>
      RealTimeGainersService.setCached st k "payload" 0) []).map Prod.fst =
      keys51) ∧
    ((keys51.foldl (fun st k =>
      SimpleCorsService.setCached st k "payload" 0) []).map Prod.fst =
      keys51) :=
  C6_amended "payload" 0 keys51 (by decide) (by decide)

/-- C9: each of the three `analyzeBulkSentiment` implementations is total
over its input and isolates per-record failures: the result `Map` has
pairwise distinct keys, its key set is exactly the set of input stock
symbols, and (for pairwise distinct input symbols) a stock whose `change`
field is absent — the one processing step that throws — is mapped to the
default neutral entry (score 0, label `Neutral`) instead of rejecting. -/
theorem C9_bulk_total (pf : Platform) (amb : Ambient) (stocks : List Quote) :
    (((RealTimeGainersService.analyzeBulkSentiment amb stocks).map
        Prod.fst).Nodup ∧
      (∀ sym, sym ∈ (RealTimeGainersService.analyzeBulkSentiment amb
        stocks).map Prod.fst ↔ sym ∈ stocks.map Quote.symbol) ∧
      ((stocks.map Quote.symbol).Nodup → ∀ s ∈ stocks, s.change = none →
        jsMapGet (RealTimeGainersService.analyzeBulkSentiment amb stocks)
          s.symbol = some ⟨0, "Neutral", 50⟩)) ∧
    (((RealYahooFinanceService.analyzeBulkSentiment amb stocks).map
        Prod.fst).Nodup ∧
      (∀ sym, sym ∈ (RealYahooFinanceService.analyzeBulkSentiment amb
        stocks).map Prod.fst ↔ sym ∈ stocks.map Quote.symbol) ∧
      ((stocks.map Quote.symbol).Nodup → ∀ s ∈ stocks, s.change = none →
        jsMapGet (RealYahooFinanceService.analyzeBulkSentiment amb stocks)
          s.symbol = some ⟨0, "Neutral", 50⟩)) ∧
    (((SimpleCorsService.analyzeBulkSentiment pf amb stocks).map
        Prod.fst).Nodup ∧
      (∀ sym, sym ∈ (SimpleCorsService.analyzeBulkSentiment pf amb
        stocks).map Prod.fst ↔ sym ∈ stocks.map Quote.symbol) ∧
      ((stocks.map Quote.symbol).Nodup → ∀ s ∈ stocks, s.change = none →
        jsMapGet (SimpleCorsService.analyzeBulkSentiment pf amb stocks)
          s.symbol = some ⟨0, "Neutral", 50⟩)) := by
  refine ⟨⟨?_, ?_, ?_⟩, ⟨?_, ?_, ?_⟩, ⟨?_, ?_, ?_⟩⟩
  · exact bulkAux_keys_nodup _ stocks 0 [] (by simp)
  · intro sym
    exact (bulkAux_mem_keys _ stocks 0 [] sym).trans (by simp)
  · intro hN s hs hc
    exact bulkAux_get_of_mem _ _ stocks 0 [] s hs hN
      (fun j => by simp [RealTimeGainersService.stockEntry, hc])
  · exact bulkAux_keys_nodup _ stocks 0 [] (by simp)
  · intro sym
    exact (bulkAux_mem_keys _ stocks 0 [] sym).trans (by simp)
  · intro hN s hs hc
    exact bulkAux_get_of_mem _ _ stocks 0 [] s hs hN
      (fun j => by simp [RealYahooFinanceService.stockEntry, hc,
        RealYahooFinanceService.getDefaultSentiment])
  · exact bulkAux_keys_nodup _ stocks 0 [] (by simp)
  · intro sym
    exact (bulkAux_mem_keys _ stocks 0 [] sym).trans (by simp)
  · intro hN s hs hc
    exact bulkAux_get_of_mem _ _ stocks 0 [] s hs hN
      (fun j => by simp [SimpleCorsService.stockEntry, hc])

/-- C9 witnessed: a single stock whose `change` field is absent resolves
to the neutral default entry in all three services. -/
theorem C9_bulk_total_witness :
    jsMapGet (RealTimeGainersService.analyzeBulkSentiment amb0 [qFail])
      qFail.symbol = some ⟨0, "Neutral", 50⟩ ∧
    jsMapGet (RealYahooFinanceService.analyzeBulkSentiment amb0 [qFail])
      qFail.symbol = some ⟨0, "Neutral", 50⟩ ∧
    jsMapGet (SimpleCorsService.analyzeBulkSentiment pf0 amb0 [qFail])
      qFail.symbol = some ⟨0, "Neutral", 50⟩ :=
  ⟨(C9_bulk_total pf0 amb0 [qFail]).1.2.2 (by decide)
      qFail (by decide) (by decide),
   (C9_bulk_total pf0 amb0 [qFail]).2.1.2.2 (by decide)
      qFail (by decide) (by decide),
   (C9_bulk_total pf0 amb0 [qFail]).2.2.2.2 (by decide)
      qFail (by decide) (by decide)⟩

/-- C5 counterexample: an Alpha Vantage feed item reporting sentiment 5 is
mapped verbatim into an article whose sentiment 5 lies outside [-1, 1],
and that article is placed in the aggregate result of
`getComprehensiveNews`. -/
theorem C5_counterexample :
    (EnhancedNewsService.getComprehensiveNews amb0 cfgC5 outcomesC5 "AAPL"
      optsC5).articles.map (fun a => a.sentiment) = [5] ∧
    ¬ ((5 : ℚ) ≤ 1) :=
  ⟨by decide, by norm_num⟩

/-- C5 amended: `calculateSentiment` always lands in [-1, 1] and every
score in the `Map` built by `analyzeBulkSentiment` lands in [-1, 1]; but
the sentiment of an article mapped from an Alpha Vantage response is the
provider value taken verbatim (no clamping), so aggregate results can
carry sentiment values outside [-1, 1]. -/
theorem C5_amended (pf : Platform) (amb : Ambient) :
    (∀ text, -1 ≤ EnhancedNewsService.calculateSentiment pf text ∧
      EnhancedNewsService.calculateSentiment pf text ≤ 1) ∧
    (∀ stocks k e,
      jsMapGet (RealTimeGainersService.analyzeBulkSentiment amb stocks) k =
        some e → -1 ≤ e.score ∧ e.score ≤ 1) ∧
    (∀ resp d,
      EnhancedNewsService.fetchFromAlphaVantageMap resp = .ok d →
      d.articles.map (fun a => a.sentiment) =
        resp.feed.map (fun it => it.overall_sentiment_score.getD 0)) := by
  refine ⟨?_, ?_, ?_⟩
  · intro text
    unfold EnhancedNewsService.calculateSentiment
    by_cases h : text = ""
    · rw [if_pos h]; norm_num
    · rw [if_neg h]
      exact ⟨le_mathMax_left _ _,
        mathMax_le _ _ _ (by norm_num) (mathMin_le_left _ _)⟩
  · intro stocks k e hget
    refine bulkAux_values _ (fun e2 => -1 ≤ e2.score ∧ e2.score ≤ 1)
      ?_ stocks 0 [] ?_ k e hget
    · intro i s
      cases hc : s.change with
      | none =>
        simp only [RealTimeGainersService.stockEntry, hc]
        norm_num
      | some cp =>
        simp only [RealTimeGainersService.stockEntry, hc]
        exact ⟨le_mathMin _ _ _ (by norm_num) (le_mathMax_left _ _),
          mathMin_le_left _ _⟩
    · intro k2 e2 h2
      exact absurd h2 (by simp [jsMapGet])
  · intro resp d h
    simp only [EnhancedNewsService.fetchFromAlphaVantageMap] at h
    cases h1 : resp.errorMessage with
    | some m => rw [h1] at h; exact absurd h (by simp)
    | none =>
      rw [h1] at h
      cases h2 : resp.information with
      | some i => rw [h2] at h; exact absurd h (by simp)
      | none =>
        rw [h2] at h
        cases h
        simp [List.map_map]

/-- C5 amended, witnessed: concrete bounds for the text scorer and a bulk
entry, and the verbatim Alpha Vantage sentiment passthrough on
`avRespC5`. -/
theorem C5_amended_witness :
    (-1 ≤ EnhancedNewsService.calculateSentiment pf0 "strong growth" ∧
      EnhancedNewsService.calculateSentiment pf0 "strong growth" ≤ 1) ∧
    (-1 ≤ (⟨0, "Neutral", 50⟩ : SentimentEntry).score ∧
      (⟨0, "Neutral", 50⟩ : SentimentEntry).score ≤ 1) ∧
    avDataC5.articles.map (fun a => a.sentiment) =
      avRespC5.feed.map (fun it => it.overall_sentiment_score.getD 0) :=
  ⟨(C5_amended pf0 amb0).1 "strong growth",
   (C5_amended pf0 amb0).2.1 [qFail] qFail.symbol ⟨0, "Neutral", 50⟩
     (by decide),
   (C5_amended pf0 amb0).2.2 avRespC5 avDataC5 rfl⟩

/-- C4 counterexample: two runs with identical stock metrics and identical
clock readings, differing only in the `Math.random()` draw, store
different sentiment scores for the same stock — randomness (and the clock)
leak into the metric-based score through `getMarketSentiment`. -/
theorem C4_counterexample :
    jsMapGet (RealYahooFinanceService.analyzeBulkSentiment amb0 [qC4])
      "NVDA" = some ⟨21/50, "Positive", 42⟩ ∧
    jsMapGet (RealYahooFinanceService.analyzeBulkSentiment amb0r [qC4])
      "NVDA" = some ⟨39/100, "Positive", 39⟩ ∧
    (21/50 : ℚ) ≠ 39/100 := by
  refine ⟨?_, ?_, by norm_num⟩
  · simp only [RealYahooFinanceService.analyzeBulkSentiment, bulkSentiment,
      bulkAux, jsMapSet, jsMapGet, RealYahooFinanceService.stockEntry,
      RealYahooFinanceService.calculateSentimentScore,
      RealYahooFinanceService.getMarketSentiment,
      RealYahooFinanceService.getSentimentLabel, qC4, amb0,
      mathMin, mathMax, mathAbs, Option.getD, reduceCtorEq, if_false]
    norm_num
  · simp only [RealYahooFinanceService.analyzeBulkSentiment, bulkSentiment,
      bulkAux, jsMapSet, jsMapGet, RealYahooFinanceService.stockEntry,
      RealYahooFinanceService.calculateSentimentScore,
      RealYahooFinanceService.getMarketSentiment,
      RealYahooFinanceService.getSentimentLabel, qC4, amb0r, amb0,
      mathMin, mathMax, mathAbs, Option.getD, reduceCtorEq, if_false]
    norm_num

/-- C4 amended: the text scorer reads no ambient state (identical text
gives identical score in any two ambient environments), and the
metric-based base scorer `calculateSentimentScore` is likewise a pure
function of the stock metrics — but the per-stock score actually stored
by `analyzeBulkSentiment` also depends on the local hour and one
`Math.random()` draw through `getMarketSentiment`, and on nothing else of
the environment. -/
theorem C4_amended :
    (∀ (pf : Platform) (a1 a2 : Ambient) (text : String),
      EnhancedNewsService.calculateSentimentRun pf a1 text =
        EnhancedNewsService.calculateSentimentRun pf a2 text) ∧
    (∀ (a1 a2 : Ambient) (cp : ℚ) (stock : Quote),
      RealYahooFinanceService.calculateSentimentScoreRun a1 cp stock =
        RealYahooFinanceService.calculateSentimentScoreRun a2 cp stock) ∧
    (∀ (a1 a2 : Ambient) (i : ℕ) (stock : Quote), a1.hour = a2.hour →
      a1.rand i = a2.rand i →
      RealYahooFinanceService.stockEntry a1 i stock =
        RealYahooFinanceService.stockEntry a2 i stock) := by
  refine ⟨fun _ _ _ _ => rfl, fun _ _ _ _ => rfl, ?_⟩
  intro a1 a2 i stock h1 h2
  cases hc : stock.change with
  | none => simp [RealYahooFinanceService.stockEntry, hc]
  | some cp =>
    simp only [RealYahooFinanceService.stockEntry, hc,
      RealYahooFinanceService.getMarketSentiment, h1, h2]

/-- C4 amended, witnessed: two environments with the same clock hour and
the same random draw (differing in the minute) give identical text scores,
identical base scores and identical stored entries. -/
theorem C4_amended_witness :
    EnhancedNewsService.calculateSentimentRun pf0 amb0 "strong growth" =
      EnhancedNewsService.calculateSentimentRun pf0 amb0m "strong growth" ∧
    RealYahooFinanceService.calculateSentimentScoreRun amb0 3 qC4 =
      RealYahooFinanceService.calculateSentimentScoreRun amb0m 3 qC4 ∧
    RealYahooFinanceService.stockEntry amb0 0 qC4 =
      RealYahooFinanceService.stockEntry amb0m 0 qC4 :=
  ⟨C4_amended.1 pf0 amb0 amb0m "strong growth",
   C4_amended.2.1 amb0 amb0m 3 qC4,
   C4_amended.2.2 amb0 amb0m 0 qC4 rfl rfl⟩

/-- C10: every synthetic quote record is a gainer by construction — each
`generateLiveMarketData` record has price at least 1, percent change at
least 0.1 and volume at least 1,000,000, and each
`generateEnhancedMockData` / `getFallbackData` record has price at least 1
and percent change at least 0.5 — whatever values the clock and the random
draws take. -/
theorem C10_synthetic_gainers :
    (∀ (amb : Ambient) (q : Quote),
      q ∈ SimpleCorsService.generateLiveMarketData amb →
      1 ≤ q.price ∧ (0.1 : ℚ) ≤ q.changePercent ∧
        1000000 ≤ q.volume.getD 0) ∧
    (∀ (pf : Platform) (amb : Ambient) (q : Quote),
      q ∈ RealYahooFinanceService.generateEnhancedMockData pf amb →
      1 ≤ q.price ∧ (0.5 : ℚ) ≤ q.changePercent) ∧
    (∀ (amb : Ambient) (q : Quote),
      q ∈ RealYahooFinanceService.getFallbackData amb →
      1 ≤ q.price ∧ (0.5 : ℚ) ≤ q.changePercent) := by
  refine ⟨?_, ?_, ?_⟩
  · intro amb q hq
    simp only [SimpleCorsService.generateLiveMarketData, List.mem_map] at hq
    obtain ⟨p, hp, rfl⟩ := hq
    exact ⟨le_mathMax_left _ _, le_mathMax_left _ _, le_mathMax_left _ _⟩
  · intro pf amb q hq
    simp only [RealYahooFinanceService.generateEnhancedMockData,
      List.mem_map] at hq
    obtain ⟨p, hp, rfl⟩ := hq
    exact ⟨le_mathMax_left _ _, le_mathMax_left _ _⟩
  · intro amb q hq
    simp only [RealYahooFinanceService.getFallbackData, List.mem_map] at hq
    obtain ⟨p, hp, rfl⟩ := hq
    exact ⟨le_mathMax_left _ _, le_mathMax_left _ _⟩

/-- C10 witnessed on the first record of each generator under a concrete
clock and random stream. -/
theorem C10_synthetic_gainers_witness :
    (1 ≤ ((SimpleCorsService.generateLiveMarketData amb0).head!).price ∧
      (0.1 : ℚ) ≤
        ((SimpleCorsService.generateLiveMarketData amb0).head!).changePercent ∧
      1000000 ≤
        ((SimpleCorsService.generateLiveMarketData
          amb0).head!).volume.getD 0) ∧
    (1 ≤ ((RealYahooFinanceService.generateEnhancedMockData pf0
        amb0).head!).price ∧
      (0.5 : ℚ) ≤ ((RealYahooFinanceService.generateEnhancedMockData pf0
        amb0).head!).changePercent) ∧
    (1 ≤ ((RealYahooFinanceService.getFallbackData amb0).head!).price ∧
      (0.5 : ℚ) ≤
        ((RealYahooFinanceService.getFallbackData
          amb0).head!).changePercent) :=
  ⟨C10_synthetic_gainers.1 amb0 _ (List.head!_mem_self (by decide)),
   C10_synthetic_gainers.2.1 pf0 amb0 _ (List.head!_mem_self (by decide)),
   C10_synthetic_gainers.2.2 amb0 _ (List.head!_mem_self (by decide))⟩

/-- C1 counterexample: with one configured adapter (Marketaux) whose call
fails, `getComprehensiveNews` falls back to `getMockNews`, whose `sources`
array is the single `Demo Data` entry — the attempted adapter has no
entry in the returned manifest, contradicting the claim that every
attempted adapter appears even when all attempts fail. -/
theorem C1_counterexample :
    EnhancedNewsService.attemptedSources cfgC1
      EnhancedNewsService.defaultOptions = ["marketaux"] ∧
    (EnhancedNewsService.getComprehensiveNews amb0 cfgC1 outcomesC1 "AAPL"
      EnhancedNewsService.defaultOptions).sources.map (fun e => e.name) =
      ["Demo Data"] ∧
    "marketaux" ∉ (EnhancedNewsService.getComprehensiveNews amb0 cfgC1
      outcomesC1 "AAPL" EnhancedNewsService.defaultOptions).sources.map
      (fun e => e.name) :=
  ⟨by decide, by decide, by decide⟩

/-- C1 amended: `getComprehensiveNews` never rejects because an adapter
failed — every settled outcome becomes data.  When at least one attempted
adapter contributed articles, the `sources` manifest has exactly one
entry per attempted adapter, in attempt order, with matching
success/error status; but when no adapter was attempted or every
attempted adapter failed (or returned no articles), the result is the
`getMockNews` result, whose manifest is the single `Demo Data` entry and
omits the attempted adapters. -/
theorem C1_amended (amb : Ambient) (cfg : EnhancedNewsService.ApiConfig)
    (outcomes : String → Except String EnhancedNewsService.AdapterData)
    (symbol : String) (opts : EnhancedNewsService.NewsOptions) :
    (EnhancedNewsService.attemptedSources cfg opts ≠ [] →
      EnhancedNewsService.mergedArticles cfg outcomes opts ≠ [] →
      (EnhancedNewsService.getComprehensiveNews amb cfg outcomes symbol
        opts).sources =
        (EnhancedNewsService.attemptedSources cfg opts).map (fun s =>
          match outcomes s with
          | .ok d => { name := s, status := "success",
                       count := some d.articles.length, error := none }
          | .error e => { name := s, status := "error",
                          count := none, error := some e })) ∧
    (EnhancedNewsService.attemptedSources cfg opts = [] ∨
      EnhancedNewsService.mergedArticles cfg outcomes opts = [] →
      EnhancedNewsService.getComprehensiveNews amb cfg outcomes symbol
        opts = EnhancedNewsService.getMockNews amb symbol) := by
  constructor
  · intro h1 h2
    simp only [EnhancedNewsService.getComprehensiveNews]
    rw [if_neg (by simpa using h1), if_neg (by simpa using h2)]
    rw [List.map_map]
    rfl
  · rintro (h | h)
    · simp only [EnhancedNewsService.getComprehensiveNews]
      rw [if_pos (by simpa using h)]
    · simp only [EnhancedNewsService.getComprehensiveNews]
      by_cases hA : EnhancedNewsService.attemptedSources cfg opts = []
      · rw [if_pos (by simpa using hA)]
      · rw [if_neg (by simpa using hA), if_pos (by simpa using h)]

/-- C1 amended, witnessed: a successful Marketaux attempt yields the
per-adapter manifest, a failed one yields the mock result. -/
theorem C1_amended_witness :
    (EnhancedNewsService.getComprehensiveNews amb0 cfgC1 outcomesC1W "AAPL"
      EnhancedNewsService.defaultOptions).sources =
      (EnhancedNewsService.attemptedSources cfgC1
        EnhancedNewsService.defaultOptions).map (fun s =>
        match outcomesC1W s with
        | .ok d => { name := s, status := "success",
                     count := some d.articles.length, error := none }
        | .error e => { name := s, status := "error",
                        count := none, error := some e }) ∧
    EnhancedNewsService.getComprehensiveNews amb0 cfgC1 outcomesC1 "AAPL"
      EnhancedNewsService.defaultOptions =
      EnhancedNewsService.getMockNews amb0 "AAPL" :=
  ⟨(C1_amended amb0 cfgC1 outcomesC1W "AAPL"
      EnhancedNewsService.defaultOptions).1 (by decide) (by decide),
   (C1_amended amb0 cfgC1 outcomesC1 "AAPL"
      EnhancedNewsService.defaultOptions).2 (Or.inr (by decide))⟩
